import Mathlib

/-!
Verification of the `json_or_protobuf` content-negotiation wrapper.

The Rust source (src/lib.rs) defines `JsonOrProtobuf<T>`, a tagged union
carrying a value either as a protobuf (binary) payload or a JSON (text)
payload, selected by exact string match against two fixed content-type
descriptors.  The surrounding axum/prost/serde machinery (header maps,
request bodies, the two codecs) are external collaborators; they are
embedded here as explicit data: a header map is a list of name/value pairs,
a header value is a byte list whose `to_str` succeeds exactly on visible
ASCII (the `http` crate contract), and each codec is a pair of
`decode : bytes → Option α` / `encode : α → bytes` functions.
-/

namespace JsonOrProtobufSpec

/-- Rust `const CONTENT_TYPE_PROTOBUF: &str = "application/octet-stream"` (lib.rs:8). -/
def CONTENT_TYPE_PROTOBUF : String := "application/octet-stream"

/-- Rust `const CONTENT_TYPE_JSON: &str = "application/json"` (lib.rs:9). -/
def CONTENT_TYPE_JSON : String := "application/json"

/-- The `http` crate's `ACCEPT` header name (normalized lowercase). -/
def ACCEPT : String := "accept"

/-- The `http` crate's `CONTENT_TYPE` header name (normalized lowercase). -/
def CONTENT_TYPE : String := "content-type"

/-- An `http::HeaderValue`: raw bytes, not necessarily valid ASCII. -/
structure HeaderValue where
  bytes : List Nat
deriving DecidableEq

/-- Rust `HeaderValue::to_str`: succeeds iff every byte is visible ASCII
(32 ≤ b < 127) or a horizontal tab, per the `http` crate. -/
def HeaderValue.to_str (v : HeaderValue) : Option String :=
  if v.bytes.all (fun b => (decide (32 ≤ b) && decide (b < 127)) || b == 9) then
    some (String.mk (v.bytes.map Char.ofNat))
  else
    none

/-- Build a header value from the bytes of an ASCII string (test helper). -/
def HeaderValue.ofString (s : String) : HeaderValue :=
  ⟨s.toList.map Char.toNat⟩

/-- An `http::HeaderMap`: a finite association of header names to values;
`get` returns the first value under a name. -/
structure HeaderMap where
  entries : List (String × HeaderValue)
deriving DecidableEq

/-- Rust `HeaderMap::get`: first value stored under the given (lowercase) name. -/
def HeaderMap.get (h : HeaderMap) (name : String) : Option HeaderValue :=
  (h.entries.find? (fun e => e.1 == name)).map (fun e => e.2)

/-- Rust `http::StatusCode`, identified by its numeric code. -/
structure StatusCode where
  code : Nat
deriving DecidableEq

/-- Rust `StatusCode::BAD_REQUEST` = 400. -/
def StatusCode.BAD_REQUEST : StatusCode := ⟨400⟩

/-- A codec capability: extract a typed value from body bytes, or render one.
`Protobuf<T>` (prost) and `Json<T>` (serde) instantiate this externally. -/
structure Codec (α : Type) where
  decode : List Nat → Option α
  encode : α → List Nat

/-- An inbound `axum::extract::Request`: headers plus a body (bytes). -/
structure Request where
  headers : HeaderMap
  body : List Nat

/-- Lines 81–84 of lib.rs: look up the `Content-Type` header and keep it
only when it decodes as a string. -/
def Request.content_type (request : Request) : Option String :=
  (request.headers.get CONTENT_TYPE).bind HeaderValue.to_str

/-- An outbound `axum::response::Response`: declared content type plus body. -/
structure Response where
  content_type : String
  body : List Nat

/-- Rust `pub enum JsonOrProtobuf<T> { Protobuf(T), Json(T) }` (lib.rs:11–14). -/
inductive JsonOrProtobuf (α : Type) where
  | protobuf : α → JsonOrProtobuf α
  | json : α → JsonOrProtobuf α
deriving DecidableEq

/-- Rust `pub struct ContentTypeError(String)` (lib.rs:17). -/
structure ContentTypeError where
  descriptor : String
deriving DecidableEq

/-- The representation tag of a payload, for stating variant-only facts. -/
inductive Variant where
  | protobuf : Variant
  | json : Variant
deriving DecidableEq

namespace JsonOrProtobuf

variable {α : Type}

/-- The tag of a payload. -/
def variant : JsonOrProtobuf α → Variant
  | .protobuf _ => .protobuf
  | .json _ => .json

/-- The carried value of a payload. -/
def value : JsonOrProtobuf α → α
  | .protobuf b => b
  | .json b => b

/-- Rust `JsonOrProtobuf::new` (lib.rs:28–34): match the descriptor against the
two constants, otherwise fail carrying the offending string. -/
def new (body : α) (content_type : String) : Except ContentTypeError (JsonOrProtobuf α) :=
  if content_type = CONTENT_TYPE_PROTOBUF then
    .ok (.protobuf body)
  else if content_type = CONTENT_TYPE_JSON then
    .ok (.json body)
  else
    .error ⟨content_type⟩

/-- Rust `JsonOrProtobuf::from_accept_header` (lib.rs:36–46): protobuf exactly
when the decoded `Accept` header equals the protobuf descriptor, else JSON. -/
def from_accept_header (body : α) (headers : HeaderMap) : JsonOrProtobuf α :=
  let accept := (headers.get ACCEPT).bind HeaderValue.to_str
  if accept = some CONTENT_TYPE_PROTOBUF then
    .protobuf body
  else
    .json body

/-- Rust `JsonOrProtobuf::decompose` (lib.rs:48–53). -/
def decompose : JsonOrProtobuf α → α × String
  | .protobuf body => (body, CONTENT_TYPE_PROTOBUF)
  | .json body => (body, CONTENT_TYPE_JSON)

/-- Rust `impl TryFrom<(T, String)> for JsonOrProtobuf<T>` (lib.rs:56–62). -/
def try_from (v : α × String) : Except ContentTypeError (JsonOrProtobuf α) :=
  new v.1 v.2

/-- Rust `impl Into<(T, String)> for JsonOrProtobuf<T>` (lib.rs:64–68). -/
def into_pair (self : JsonOrProtobuf α) : α × String :=
  self.decompose

/-- Rust `from_request` (lib.rs:80–105): dispatch on the decoded `Content-Type`
header; extract through the matching codec, mapping any codec failure to
`BAD_REQUEST`; reject everything else with `BAD_REQUEST`. -/
def from_request (pc jc : Codec α) (request : Request) :
    Except StatusCode (JsonOrProtobuf α) :=
  match request.content_type with
  | some "application/octet-stream" =>
      match pc.decode request.body with
      | some payload => .ok (.protobuf payload)
      | none => .error StatusCode.BAD_REQUEST
  | some "application/json" =>
      match jc.decode request.body with
      | some payload => .ok (.json payload)
      | none => .error StatusCode.BAD_REQUEST
  | _ => .error StatusCode.BAD_REQUEST

/-- Rust `impl IntoResponse for JsonOrProtobuf<T>` (lib.rs:108–118): render the
value through the matching codec and declare the matching descriptor. -/
def into_response (pc jc : Codec α) : JsonOrProtobuf α → Response
  | .protobuf p => ⟨CONTENT_TYPE_PROTOBUF, pc.encode p⟩
  | .json j => ⟨CONTENT_TYPE_JSON, jc.encode j⟩

end JsonOrProtobuf

/-- A lawful codec on `Nat` used to instantiate witnesses: encodes `n`
as the singleton byte list `[n]`. -/
def natCodec : Codec Nat where
  decode := fun b => match b with
    | [n] => some n
    | _ => none
  encode := fun n => [n]

/-- A codec on `Nat` that rejects every body (for codec-failure witnesses). -/
def failCodec : Codec Nat where
  decode := fun _ => none
  encode := fun n => [n]

end JsonOrProtobufSpec

namespace JsonOrProtobufSpec

open JsonOrProtobuf

/-- Shape of `from_request` as nested conditionals on the decoded
content type, shared by the decode-path theorems. -/
theorem from_request_eq {α : Type} (pc jc : Codec α) (r : Request) :
    from_request pc jc r =
      if r.content_type = some CONTENT_TYPE_PROTOBUF then
        match pc.decode r.body with
        | some payload => .ok (.protobuf payload)
        | none => .error StatusCode.BAD_REQUEST
      else if r.content_type = some CONTENT_TYPE_JSON then
        match jc.decode r.body with
        | some payload => .ok (.json payload)
        | none => .error StatusCode.BAD_REQUEST
      else
        .error StatusCode.BAD_REQUEST := by
  unfold from_request
  split
  next heq => rw [heq]; simp [CONTENT_TYPE_PROTOBUF]
  next heq => rw [heq]; simp [CONTENT_TYPE_PROTOBUF, CONTENT_TYPE_JSON]
  next h1 h2 =>
    rw [if_neg, if_neg]
    · intro hc; exact h2 hc
    · intro hc; exact h1 hc

/-- C1: `new` returns `ok (protobuf v)` exactly on the protobuf descriptor,
`ok (json v)` exactly on the JSON descriptor, and otherwise an error
carrying the input descriptor verbatim; being a total Lean function, no
other outcome (and no side effect) is possible. -/
theorem new_trichotomy {α : Type} (v : α) (d : String) :
    (d = CONTENT_TYPE_PROTOBUF → new v d = .ok (.protobuf v)) ∧
    (d = CONTENT_TYPE_JSON → new v d = .ok (.json v)) ∧
    (d ≠ CONTENT_TYPE_PROTOBUF → d ≠ CONTENT_TYPE_JSON →
      new v d = .error ⟨d⟩) := by
  refine ⟨fun h => ?_, fun h => ?_, fun h1 h2 => ?_⟩
  · rw [new, if_pos h]
  · rw [new, if_neg, if_pos h]
    rw [h]; simp [CONTENT_TYPE_JSON, CONTENT_TYPE_PROTOBUF]
  · rw [new, if_neg h1, if_neg h2]

/-- Witness for C1 at concrete inputs covering all three branches. -/
theorem new_trichotomy_witness :
    new (3 : Nat) "application/octet-stream" = .ok (.protobuf 3) ∧
    new (3 : Nat) "application/json" = .ok (.json 3) ∧
    new (3 : Nat) "text/xml" = .error ⟨"text/xml"⟩ :=
  ⟨(new_trichotomy 3 "application/octet-stream").1 rfl,
   (new_trichotomy 3 "application/json").2.1 rfl,
   (new_trichotomy 3 "text/xml").2.2 (by decide) (by decide)⟩

/-- C2: whenever the request's content type is missing, undecodable, or any
string other than the two recognized descriptors, `from_request` rejects
with `BAD_REQUEST` for every pair of codecs, so neither codec capability
can influence (or be invoked on) the outcome. -/
theorem from_request_strict {α : Type} (request : Request)
    (h1 : request.content_type ≠ some CONTENT_TYPE_PROTOBUF)
    (h2 : request.content_type ≠ some CONTENT_TYPE_JSON) :
    ∀ pc jc : Codec α,
      from_request pc jc request = .error StatusCode.BAD_REQUEST := by
  intro pc jc
  rw [from_request_eq, if_neg h1, if_neg h2]

/-- Witness for C2: a request with no `Content-Type` header at all. -/
theorem from_request_strict_witness :
    from_request natCodec natCodec ⟨⟨[]⟩, [5]⟩ = .error StatusCode.BAD_REQUEST :=
  from_request_strict ⟨⟨[]⟩, [5]⟩ (by decide) (by decide) natCodec natCodec

/-- C3: `from_accept_header` is total (it is a Lean function) and yields the
protobuf variant exactly when the decoded `Accept` header equals the
protobuf descriptor; in every other case (absent, undecodable, any other
string including the JSON descriptor) it yields the JSON variant. -/
theorem from_accept_header_cases {α : Type} (v : α) (headers : HeaderMap) :
    ((headers.get ACCEPT).bind HeaderValue.to_str = some CONTENT_TYPE_PROTOBUF →
      from_accept_header v headers = .protobuf v) ∧
    ((headers.get ACCEPT).bind HeaderValue.to_str ≠ some CONTENT_TYPE_PROTOBUF →
      from_accept_header v headers = .json v) := by
  constructor <;> intro h <;> simp only [from_accept_header] <;>
    [rw [if_pos h]; rw [if_neg h]]

/-- Witness for C3: protobuf preference, no header, JSON preference, and an
undecodable (non-ASCII) header byte. -/
theorem from_accept_header_cases_witness :
    from_accept_header (3 : Nat)
      ⟨[(ACCEPT, HeaderValue.ofString "application/octet-stream")]⟩ = .protobuf 3 ∧
    from_accept_header (3 : Nat) ⟨[]⟩ = .json 3 ∧
    from_accept_header (3 : Nat)
      ⟨[(ACCEPT, HeaderValue.ofString "application/json")]⟩ = .json 3 ∧
    from_accept_header (3 : Nat) ⟨[(ACCEPT, ⟨[200]⟩)]⟩ = .json 3 :=
  ⟨(from_accept_header_cases 3 _).1 (by decide),
   (from_accept_header_cases 3 _).2 (by decide),
   (from_accept_header_cases 3 _).2 (by decide),
   (from_accept_header_cases 3 _).2 (by decide)⟩

/-- C4: `decompose` is total and pure (a Lean function), pairing the carried
value with the descriptor of its variant, and `new` followed by `decompose`
returns exactly the original (value, descriptor) pair whenever `new`
succeeds. -/
theorem decompose_round_trip {α : Type} (v : α) (d : String) :
    (JsonOrProtobuf.protobuf v).decompose = (v, CONTENT_TYPE_PROTOBUF) ∧
    (JsonOrProtobuf.json v).decompose = (v, CONTENT_TYPE_JSON) ∧
    (∀ q : JsonOrProtobuf α, new v d = .ok q → q.decompose = (v, d)) := by
  refine ⟨rfl, rfl, fun q hq => ?_⟩
  rw [new] at hq
  split at hq
  next h =>
    injection hq with hq
    subst hq; rw [h]; rfl
  next h =>
    split at hq
    next h2 =>
      injection hq with hq
      subst hq; rw [h2]; rfl
    next h2 => exact Except.noConfusion hq

/-- Witness for C4: round trip at both recognized descriptors. -/
theorem decompose_round_trip_witness :
    (JsonOrProtobuf.protobuf (3 : Nat)).decompose = (3, "application/octet-stream") ∧
    (JsonOrProtobuf.json (3 : Nat)).decompose = (3, "application/json") :=
  ⟨(decompose_round_trip (3 : Nat) "application/octet-stream").2.2 (.protobuf 3) (by rfl),
   (decompose_round_trip (3 : Nat) "application/json").2.2 (.json 3) (by rfl)⟩

/-- C5: with a recognized descriptor but a body the matching codec cannot
decode, `from_request` returns the `BAD_REQUEST` rejection (no panic, no
default value), and every failure of `from_request` — missing descriptor,
unrecognized descriptor, or codec failure — carries exactly the same
`BAD_REQUEST` status, discarding the codec error detail. -/
theorem from_request_codec_failure {α : Type} (pc jc : Codec α) (request : Request) :
    (request.content_type = some CONTENT_TYPE_PROTOBUF →
      pc.decode request.body = none →
      from_request pc jc request = .error StatusCode.BAD_REQUEST) ∧
    (request.content_type = some CONTENT_TYPE_JSON →
      jc.decode request.body = none →
      from_request pc jc request = .error StatusCode.BAD_REQUEST) ∧
    (∀ e, from_request pc jc request = .error e → e = StatusCode.BAD_REQUEST) := by
  refine ⟨fun hct hd => ?_, fun hct hd => ?_, fun e he => ?_⟩
  · rw [from_request_eq, if_pos hct, hd]
  · rw [from_request_eq, if_neg, if_pos hct, hd]
    rw [hct]; simp [CONTENT_TYPE_JSON, CONTENT_TYPE_PROTOBUF]
  · rw [from_request_eq] at he
    split at he
    · split at he
      · exact Except.noConfusion he
      · injection he with he; exact he.symm
    · split at he
      · split at he
        · exact Except.noConfusion he
        · injection he with he; exact he.symm
      · injection he with he; exact he.symm

/-- Witness for C5: a JSON-typed request whose body the codec rejects. -/
theorem from_request_codec_failure_witness :
    from_request failCodec failCodec
      ⟨⟨[(CONTENT_TYPE, HeaderValue.ofString "application/json")]⟩, [5]⟩ =
      .error StatusCode.BAD_REQUEST :=
  (from_request_codec_failure failCodec failCodec
      ⟨⟨[(CONTENT_TYPE, HeaderValue.ofString "application/json")]⟩, [5]⟩).2.1
    (by decide) rfl

/-- C6: `into_response` declares the descriptor matching the variant and its
body is exactly the matching codec's rendering of the value; hence for
lawful codecs (decode inverts encode) decoding the body reproduces the
value. -/
theorem into_response_fidelity {α : Type} (pc jc : Codec α) (v : α)
    (hp : pc.decode (pc.encode v) = some v)
    (hj : jc.decode (jc.encode v) = some v) :
    (into_response pc jc (.protobuf v)).content_type = CONTENT_TYPE_PROTOBUF ∧
    (into_response pc jc (.protobuf v)).body = pc.encode v ∧
    pc.decode (into_response pc jc (.protobuf v)).body = some v ∧
    (into_response pc jc (.json v)).content_type = CONTENT_TYPE_JSON ∧
    (into_response pc jc (.json v)).body = jc.encode v ∧
    jc.decode (into_response pc jc (.json v)).body = some v :=
  ⟨rfl, rfl, hp, rfl, rfl, hj⟩

/-- Witness for C6 with a concrete lawful codec on `Nat`. -/
theorem into_response_fidelity_witness :
    (into_response natCodec natCodec (.protobuf (3 : Nat))).content_type =
      "application/octet-stream" ∧
    natCodec.decode (into_response natCodec natCodec (.json (3 : Nat))).body = some 3 :=
  ⟨(into_response_fidelity natCodec natCodec 3 rfl rfl).1,
   (into_response_fidelity natCodec natCodec 3 rfl rfl).2.2.2.2.2⟩

/-- C7: a request declaring the protobuf descriptor whose body decodes (under
the protobuf codec) to `v` yields `ok (protobuf v)`; symmetrically for the
JSON descriptor and codec. -/
theorem from_request_dispatch {α : Type} (pc jc : Codec α) (request : Request) (v : α) :
    (request.content_type = some CONTENT_TYPE_PROTOBUF →
      pc.decode request.body = some v →
      from_request pc jc request = .ok (.protobuf v)) ∧
    (request.content_type = some CONTENT_TYPE_JSON →
      jc.decode request.body = some v →
      from_request pc jc request = .ok (.json v)) := by
  refine ⟨fun hct hd => ?_, fun hct hd => ?_⟩
  · rw [from_request_eq, if_pos hct, hd]
  · rw [from_request_eq, if_neg, if_pos hct, hd]
    rw [hct]; simp [CONTENT_TYPE_JSON, CONTENT_TYPE_PROTOBUF]

/-- Witness for C7: both dispatch directions on concrete requests. -/
theorem from_request_dispatch_witness :
    from_request natCodec natCodec
      ⟨⟨[(CONTENT_TYPE, HeaderValue.ofString "application/octet-stream")]⟩, [7]⟩ =
      .ok (.protobuf 7) ∧
    from_request natCodec natCodec
      ⟨⟨[(CONTENT_TYPE, HeaderValue.ofString "application/json")]⟩, [7]⟩ =
      .ok (.json 7) :=
  ⟨(from_request_dispatch natCodec natCodec _ 7).1 (by decide) rfl,
   (from_request_dispatch natCodec natCodec _ 7).2 (by decide) rfl⟩

/-- C8: descriptor matching is exact and case-sensitive, with no
parameter/charset parsing: a JSON descriptor with a charset parameter and
an upper-cased JSON descriptor are both rejected by `new` (with the
offending string) and by `from_request` (with `BAD_REQUEST`). -/
theorem descriptor_exact_match {α : Type} (v : α) (pc jc : Codec α) (request : Request) :
    new v "application/json; charset=utf-8" =
      .error ⟨"application/json; charset=utf-8"⟩ ∧
    new v "Application/JSON" = .error ⟨"Application/JSON"⟩ ∧
    (request.content_type = some "application/json; charset=utf-8" →
      from_request pc jc request = .error StatusCode.BAD_REQUEST) ∧
    (request.content_type = some "Application/JSON" →
      from_request pc jc request = .error StatusCode.BAD_REQUEST) := by
  refine ⟨?_, ?_, fun hct => ?_, fun hct => ?_⟩
  · exact (new_trichotomy v _).2.2 (by decide) (by decide)
  · exact (new_trichotomy v _).2.2 (by decide) (by decide)
  · refine from_request_strict request ?_ ?_ pc jc <;> rw [hct] <;>
      simp [CONTENT_TYPE_PROTOBUF, CONTENT_TYPE_JSON]
  · refine from_request_strict request ?_ ?_ pc jc <;> rw [hct] <;>
      simp [CONTENT_TYPE_PROTOBUF, CONTENT_TYPE_JSON]

/-- Witness for C8: a concrete request declaring `Application/JSON`. -/
theorem descriptor_exact_match_witness :
    from_request natCodec natCodec
      ⟨⟨[(CONTENT_TYPE, HeaderValue.ofString "Application/JSON")]⟩, [5]⟩ =
      .error StatusCode.BAD_REQUEST :=
  (descriptor_exact_match (0 : Nat) natCodec natCodec
      ⟨⟨[(CONTENT_TYPE, HeaderValue.ofString "Application/JSON")]⟩, [5]⟩).2.2.2
    (by decide)

/-- C9: the trait conversions agree with the named operations and invert each
other: `try_from (v, d)` equals `new v d`, the tuple conversion equals
`decompose`, and `try_from` after `decompose` restores the payload exactly. -/
theorem trait_conversions {α : Type} (v : α) (d : String) (p : JsonOrProtobuf α) :
    try_from (v, d) = new v d ∧
    p.into_pair = p.decompose ∧
    try_from p.decompose = .ok p := by
  refine ⟨rfl, rfl, ?_⟩
  cases p <;>
    simp [try_from, decompose, new, CONTENT_TYPE_PROTOBUF, CONTENT_TYPE_JSON]

/-- C10: the variant chosen by `from_accept_header` depends only on the
`Accept` entry of the header map — two maps agreeing there (including both
lacking it) select the same variant whatever other headers they hold — and
the carried value is always exactly the value passed in. -/
theorem from_accept_header_accept_only {α : Type} (v : α) (h1 h2 : HeaderMap)
    (hacc : h1.get ACCEPT = h2.get ACCEPT) :
    (from_accept_header v h1).variant = (from_accept_header v h2).variant ∧
    (from_accept_header v h1).value = v ∧
    (from_accept_header v h2).value = v := by
  refine ⟨?_, ?_, ?_⟩ <;> simp only [from_accept_header]
  · rw [hacc]
  · split <;> rfl
  · split <;> rfl

/-- Witness for C10: maps differing in an unrelated header agree. -/
theorem from_accept_header_accept_only_witness :
    (from_accept_header (3 : Nat)
        ⟨[("x-extra", HeaderValue.ofString "1")]⟩).variant =
      (from_accept_header (3 : Nat) ⟨[]⟩).variant ∧
    (from_accept_header (3 : Nat)
        ⟨[("x-extra", HeaderValue.ofString "1")]⟩).value = 3 ∧
    (from_accept_header (3 : Nat) ⟨[]⟩).value = 3 :=
  from_accept_header_accept_only 3 _ _ (by decide)

end JsonOrProtobufSpec
